import Mathlib

/-!
Shallow embedding of `pkg/data/generic.go` from kube-mgmt: the `GenericSync`
worker that replicates Kubernetes resources into OPA.

Modelling conventions:
* Durations are natural numbers of seconds, so `backoffMin = 1` and
  `backoffMax = 30` (the source uses `time.Second` and `time.Second * 30`).
* The remote source and the OPA sink are external collaborators; they are
  modelled as oracles: a scripted list result, a scripted watch stream per
  resource version, and response functions for the sink calls.
* `sync` returns the sequence of source/sink calls it issued (its trace)
  together with its outcome, `none` standing for the Go `nil` return.
* The Go `select` racing the watch channel against `quit` is modelled by a
  deterministic schedule `quitAt : Option Nat`: `some k` means the quit
  channel becomes ready before the k-th event (0-based) is received.
* A closed Go channel delivers the zero `watch.Event`, whose empty event type
  falls into the `default` branch of the switch; the model reaches the same
  `errChannelClosed` outcome when the scripted stream is exhausted.
-/

namespace KubeMgmt

/-- Durations in seconds, the granularity of the backoff constants. -/
abbrev Duration := Nat

/-- `backoffMax = time.Second * 30` (generic.go line 36), in seconds. -/
def backoffMax : Duration := 30

/-- `backoffMin = time.Second` (generic.go line 37), in seconds. -/
def backoffMin : Duration := 1

/-- The identity metadata that `meta.Accessor` exposes and the core reads:
`GetName()` and `GetNamespace()`. -/
structure ObjMeta where
  GetName : String
  GetNamespace : String
deriving DecidableEq, Repr

/-- A dynamically-typed `runtime.Object`. `meta` is the result of
`meta.Accessor(obj)`: the identity metadata, or the accessor's error.
`payload` tags the rest of the object, which the core never inspects and
forwards to the sink opaquely. -/
structure Obj where
  meta : Except String ObjMeta
  payload : Nat
deriving Repr

instance : DecidableEq (Except String ObjMeta) := fun a b =>
  match a, b with
  | Except.ok x, Except.ok y =>
    if h : x = y then isTrue (by rw [h]) else isFalse (by intro hc; cases hc; exact h rfl)
  | Except.error x, Except.error y =>
    if h : x = y then isTrue (by rw [h]) else isFalse (by intro hc; cases hc; exact h rfl)
  | Except.ok _, Except.error _ => isFalse (by intro hc; cases hc)
  | Except.error _, Except.ok _ => isFalse (by intro hc; cases hc)

instance : DecidableEq Obj := fun a b =>
  match a, b with
  | ⟨m₁, p₁⟩, ⟨m₂, p₂⟩ =>
    if h : m₁ = m₂ ∧ p₁ = p₂ then isTrue (by rw [h.1, h.2])
    else isFalse (by intro hc; cases hc; exact h ⟨rfl, rfl⟩)

/-- `watch.Added` -/
def watchAdded : String := "ADDED"

/-- `watch.Modified` -/
def watchModified : String := "MODIFIED"

/-- `watch.Deleted` -/
def watchDeleted : String := "DELETED"

/-- `watch.Error` -/
def watchError : String := "ERROR"

/-- A `watch.Event`: an event type string (the Go `Type` field) and the
carried object. -/
structure Event where
  Typ : String
  Object : Obj
deriving DecidableEq, Repr

/-- `types.ResourceType`, as used by generic.go: group/version/resource plus
the `Namespaced` flag that selects the path rule. -/
structure ResourceType where
  Group : String
  Version : String
  Resource : String
  Namespaced : Bool
deriving DecidableEq, Repr

/-- A value handed to the sink's `PutData`: a resource object, or the empty
map `map[string]interface{}{}` used by `syncReset`. -/
inductive SinkVal where
  | obj (o : Obj)
  | emptyMap
deriving DecidableEq, Repr

/-- One source or sink call issued by the worker, recorded in the trace:
`resource.List`, `resource.Watch` (with the resource version it was given),
`opa.PutData(path, value)`, or `opa.PatchData(path, "remove", nil)`. -/
inductive Call where
  | listCall
  | watchCall (resourceVersion : String)
  | putData (path : String) (value : SinkVal)
  | patchRemove (path : String)
deriving DecidableEq, Repr

/-- `true` exactly on the sink (OPA) calls of a trace. -/
def isSinkCall : Call → Bool
  | Call.putData _ _ => true
  | Call.patchRemove _ => true
  | _ => false

/-- The `GenericSync` worker: its resource type and the sink's behaviour,
modelled by response oracles (`none` = success, `some cause` = error) for
`PutData` and for the `"remove"` `PatchData`. -/
structure GenericSync where
  ns : ResourceType
  putDataRes : String → SinkVal → Option String
  patchRemoveRes : String → Option String

/-- The three error types `sync` can return: `errKubernetes`, `errOPA`
(each wrapping a cause) and `errChannelClosed` (generic.go lines 118-126). -/
inductive SyncErr where
  | errKubernetes (cause : String)
  | errOPA (cause : String)
  | errChannelClosed
deriving DecidableEq, Repr

/-- `syncAdd` (generic.go lines 205-216): extract the identity metadata
(fail-fast on accessor error), compute the path — `namespace + "/" + name`
when the type is namespaced, the bare name otherwise — and `PutData` the
object there. Returns the calls issued and the Go error (`none` = nil). -/
def syncAdd (s : GenericSync) (obj : Obj) : List Call × Option String :=
  match obj.meta with
  | Except.error e => ([], some e)
  | Except.ok m =>
    let name := m.GetName
    let path := m.GetName
    let path := if s.ns.Namespaced then m.GetNamespace ++ "/" ++ name else path
    ([Call.putData path (SinkVal.obj obj)], s.putDataRes path (SinkVal.obj obj))

/-- `syncRemove` (generic.go lines 218-229): same path computation as
`syncAdd`, then `PatchData(path, "remove", nil)`. -/
def syncRemove (s : GenericSync) (obj : Obj) : List Call × Option String :=
  match obj.meta with
  | Except.error e => ([], some e)
  | Except.ok m =>
    let name := m.GetName
    let path := m.GetName
    let path := if s.ns.Namespaced then m.GetNamespace ++ "/" ++ name else path
    ([Call.patchRemove path], s.patchRemoveRes path)

/-- `syncReset` (generic.go lines 231-233): `PutData("/", map[string]interface{}{})`. -/
def syncReset (s : GenericSync) : List Call × Option String :=
  ([Call.putData "/" SinkVal.emptyMap], s.putDataRes "/" SinkVal.emptyMap)

/-- Decrements the quit schedule by one received event. -/
def decr : Option Nat → Option Nat
  | none => none
  | some n => some (n - 1)

/-- The event-consumption loop of `sync` (generic.go lines 175-202). Each
iteration selects between the next watch event and `quit`; `quitAt = some 0`
means `quit` is ready now, so the `case <-quit` branch runs and `sync`
returns `nil`. Otherwise the next event is received and switched on its
type: Added/Modified upsert via `syncAdd` (failure wrapped as
`errOPA("add event"/"modify event")`), Deleted removes via `syncRemove`
(failure wrapped as `errOPA("delete event")`), Error returns
`errKubernetes("error event")` (the `%v`-formatted payload of the Go message
is elided), and any other type hits `default` and returns `errChannelClosed`.
An exhausted script is the closed channel, whose zero-valued event also
reaches `default`. -/
def syncEvents (s : GenericSync) : List Event → Option Nat → List Call × Option SyncErr
  | _, some 0 => ([], none)
  | [], _ => ([], some SyncErr.errChannelClosed)
  | evt :: rest, q =>
    if evt.Typ = watchAdded then
      let add := syncAdd s evt.Object
      match add.2 with
      | some e => (add.1, some (SyncErr.errOPA ("add event: " ++ e)))
      | none =>
        let next := syncEvents s rest (decr q)
        (add.1 ++ next.1, next.2)
    else if evt.Typ = watchModified then
      let add := syncAdd s evt.Object
      match add.2 with
      | some e => (add.1, some (SyncErr.errOPA ("modify event: " ++ e)))
      | none =>
        let next := syncEvents s rest (decr q)
        (add.1 ++ next.1, next.2)
    else if evt.Typ = watchDeleted then
      let rem := syncRemove s evt.Object
      match rem.2 with
      | some e => (rem.1, some (SyncErr.errOPA ("delete event: " ++ e)))
      | none =>
        let next := syncEvents s rest (decr q)
        (rem.1 ++ next.1, next.2)
    else if evt.Typ = watchError then
      ([], some (SyncErr.errKubernetes "error event"))
    else
      ([], some SyncErr.errChannelClosed)

/-- The snapshot-load loop of `sync` (generic.go lines 155-159): `syncAdd`
each listed item in order, stopping at the first error. -/
def syncList (s : GenericSync) : List Obj → List Call × Option String
  | [] => ([], none)
  | item :: rest =>
    let add := syncAdd s item
    match add.2 with
    | some e => (add.1, some e)
    | none =>
      let next := syncList s rest
      (add.1 ++ next.1, next.2)

/-- The result of `resource.List`: the items and the list's resource
version (the resumption token `result.GetResourceVersion()`). -/
structure ListResult where
  Items : List Obj
  resourceVersion : String
deriving DecidableEq, Repr

/-- The remote list/watch source, scripted: the outcome of `resource.List`
and, per resource version, the outcome of `resource.Watch` (an error, or
the finite stream of events the channel delivers before closing). -/
structure Source where
  listRes : Except String ListResult
  watchRes : String → Except String (List Event)

/-- `sync` (generic.go lines 132-203): list (failure is
`errKubernetes("list")`), read the resource version, reset OPA (failure is
`errOPA("reset")`), load every listed item (failure is `errOPA("list add")`),
open the watch at exactly the listed resource version (failure is
`errKubernetes("watch")`), then run the event loop. Returns the full call
trace and the outcome. -/
def sync (s : GenericSync) (src : Source) (quitAt : Option Nat) :
    List Call × Option SyncErr :=
  match src.listRes with
  | Except.error e => ([Call.listCall], some (SyncErr.errKubernetes ("list: " ++ e)))
  | Except.ok result =>
    let resourceVersion := result.resourceVersion
    let reset := syncReset s
    match reset.2 with
    | some e =>
      (Call.listCall :: reset.1, some (SyncErr.errOPA ("reset: " ++ e)))
    | none =>
      let load := syncList s result.Items
      match load.2 with
      | some e =>
        (Call.listCall :: reset.1 ++ load.1,
         some (SyncErr.errOPA ("list add: " ++ e)))
      | none =>
        match src.watchRes resourceVersion with
        | Except.error e =>
          (Call.listCall :: reset.1 ++ load.1 ++ [Call.watchCall resourceVersion],
           some (SyncErr.errKubernetes ("watch: " ++ e)))
        | Except.ok evs =>
          let next := syncEvents s evs quitAt
          (Call.listCall :: reset.1 ++ load.1 ++
             Call.watchCall resourceVersion :: next.1,
           next.2)

/-- One scripted iteration of the retry loop: the outcome `sync` returned
(`none` = nil) and whether `quit` fires during the backoff wait of that
iteration, if there is one. -/
structure CycleOutcome where
  err : Option SyncErr
  quitDuringWait : Bool
deriving DecidableEq, Repr

/-- An observable step of the retry loop: a call to `sync`, a backoff wait
that ran to completion, or a backoff wait of the stated duration aborted by
the quit signal. -/
inductive LoopEv where
  | syncCall
  | wait (d : Duration)
  | waitInterrupted (d : Duration)
deriving DecidableEq, Repr

/-- The retry loop `loop` (generic.go lines 75-115), over a script of cycle
outcomes, starting from the current `delay`. `sync` returning nil ends the
loop. `errChannelClosed` resets `delay` to `backoffMin` and retries with no
wait. `errOPA` sets `delay = backoffMin` and waits it out (quit during the
wait returns). `errKubernetes` doubles `delay`, caps it at `backoffMax`, and
waits the capped delay (quit during the wait returns). An exhausted script
ends the model's observation. -/
def loop (delay : Duration) : List CycleOutcome → List LoopEv
  | [] => []
  | c :: rest =>
    LoopEv.syncCall ::
      match c.err with
      | none => []
      | some SyncErr.errChannelClosed => loop backoffMin rest
      | some (SyncErr.errOPA _) =>
        let delay := backoffMin
        if c.quitDuringWait then [LoopEv.waitInterrupted delay]
        else LoopEv.wait delay :: loop delay rest
      | some (SyncErr.errKubernetes _) =>
        let delay := delay * 2
        let delay := if delay > backoffMax then backoffMax else delay
        if c.quitDuringWait then [LoopEv.waitInterrupted delay]
        else LoopEv.wait delay :: loop delay rest

/-- The durations of the completed backoff waits of a loop run. -/
def waitsOf : List LoopEv → List Duration
  | [] => []
  | LoopEv.wait d :: rest => d :: waitsOf rest
  | _ :: rest => waitsOf rest

/-- Whether `meta.Accessor` succeeds on the object. -/
def metaOk (obj : Obj) : Bool :=
  match obj.meta with
  | Except.ok _ => true
  | Except.error _ => false

/-- The storage path `syncAdd` and `syncRemove` compute for an object whose
accessor succeeds: `namespace + "/" + name` for a namespaced resource type,
the bare name otherwise (and `""` as a placeholder on accessor failure,
where neither function reaches the path computation). -/
def pathOf (s : GenericSync) (obj : Obj) : String :=
  match obj.meta with
  | Except.ok m => if s.ns.Namespaced then m.GetNamespace ++ "/" ++ m.GetName else m.GetName
  | Except.error _ => ""

/-- The sink calls one watch event gives rise to: a remove for a Deleted
event, an upsert otherwise. -/
def eventCallsOf (s : GenericSync) (e : Event) : List Call :=
  if e.Typ = watchDeleted then (syncRemove s e.Object).1 else (syncAdd s e.Object).1

/-! Concrete fixtures used to evaluate the theorems on closed inputs. -/

/-- A worker whose sink always succeeds, for the given resource type. -/
def okSink (ns : ResourceType) : GenericSync :=
  { ns := ns, putDataRes := fun _ _ => none, patchRemoveRes := fun _ => none }

/-- A namespaced worker with an always-succeeding sink. -/
def sNs : GenericSync := okSink { Group := "", Version := "v1", Resource := "pods", Namespaced := true }

/-- A non-namespaced worker with an always-succeeding sink. -/
def sFlat : GenericSync := okSink { Group := "", Version := "v1", Resource := "nodes", Namespaced := false }

/-- A namespaced worker whose sink rejects every call. -/
def sBadSink : GenericSync :=
  { ns := { Group := "", Version := "v1", Resource := "pods", Namespaced := true },
    putDataRes := fun _ _ => some "opa down",
    patchRemoveRes := fun _ => some "opa down" }

/-- A namespaced worker whose sink accepts the reset at `"/"` but rejects
every other write. -/
def sItemFailSink : GenericSync :=
  { ns := { Group := "", Version := "v1", Resource := "pods", Namespaced := true },
    putDataRes := fun p _ => if p = "/" then none else some "opa down",
    patchRemoveRes := fun _ => some "opa down" }

/-- Object `"foo"` in namespace `"bar"`. -/
def fooBar : Obj := { meta := Except.ok { GetName := "foo", GetNamespace := "bar" }, payload := 0 }

/-- Object `"foo"` with an empty namespace field. -/
def fooEmptyNs : Obj := { meta := Except.ok { GetName := "foo", GetNamespace := "" }, payload := 0 }

/-- An object on which `meta.Accessor` fails. -/
def badObj : Obj := { meta := Except.error "object has no meta", payload := 0 }

/-- Object `"a"` in namespace `"ns1"`. -/
def objA : Obj := { meta := Except.ok { GetName := "a", GetNamespace := "ns1" }, payload := 1 }

/-- Object `"b"` in namespace `"ns1"`. -/
def objB : Obj := { meta := Except.ok { GetName := "b", GetNamespace := "ns1" }, payload := 2 }

/-- A scripted source: the listing returns `[objA]` at resource version
`"v1"`; the watch stream adds `objB` then deletes `objA` and closes. -/
def srcAB : Source :=
  { listRes := Except.ok { Items := [objA], resourceVersion := "v1" },
    watchRes := fun _ => Except.ok [⟨watchAdded, objB⟩, ⟨watchDeleted, objA⟩] }

/-- A source whose listing fails. -/
def srcListFail : Source :=
  { listRes := Except.error "connection refused", watchRes := fun _ => Except.ok [] }

/-- A source that lists `[objA]` and whose watch call fails. -/
def srcWatchFail : Source :=
  { listRes := Except.ok { Items := [objA], resourceVersion := "v1" },
    watchRes := fun _ => Except.error "connection refused" }

/-- Three consecutive Kubernetes-error cycle outcomes, no quit. -/
def threeK : List CycleOutcome :=
  List.replicate 3 { err := some (SyncErr.errKubernetes "e"), quitDuringWait := false }

/-! Helper lemmas. -/

/-- Every completed backoff wait of any loop run is at most `backoffMax`:
the cap is applied before the timer is started. -/
theorem waitsOf_loop_le (script : List CycleOutcome) :
    ∀ (delay : Duration), ∀ w ∈ waitsOf (loop delay script), w ≤ backoffMax := by
  induction script with
  | nil => intro delay w hw; simp [loop, waitsOf] at hw
  | cons c rest ih =>
    obtain ⟨err, qd⟩ := c
    intro delay w hw
    cases err with
    | none => simp [loop, waitsOf] at hw
    | some e =>
      cases e with
      | errChannelClosed =>
        simp only [loop, waitsOf] at hw
        exact ih backoffMin w hw
      | errOPA cause =>
        cases qd with
        | true => simp [loop, waitsOf] at hw
        | false =>
          simp only [loop, waitsOf, if_false, Bool.false_eq_true] at hw
          rcases List.mem_cons.mp hw with h | h
          · subst h; decide
          · exact ih backoffMin w h
      | errKubernetes cause =>
        cases qd with
        | true => simp [loop, waitsOf] at hw
        | false =>
          simp only [loop, waitsOf, if_false, Bool.false_eq_true] at hw
          rcases List.mem_cons.mp hw with h | h
          · subst h
            show (if delay * 2 > backoffMax then backoffMax else delay * 2) ≤ backoffMax
            split
            · exact le_rfl
            · rename Not _ => hcap
              exact Nat.le_of_not_lt hcap
          · exact ih _ w h

/-! Claim theorems. -/

/-- C1 counterexample: starting from the minimum delay, three consecutive
SourceFailure (errKubernetes) outcomes do NOT wait 1, 2 and 4 time units:
the loop doubles the delay before starting the timer, so it waits 2, 4, 8. -/
theorem backoff_waits_not_one_two_four :
    waitsOf (loop backoffMin threeK) ≠ [1, 2, 4] := by decide

/-- C1 (amended): starting from the initial minimum delay, three consecutive
SourceFailure outcomes wait 2, 4 and 8 time units (the delay doubles before
each wait), and for every sequence of consecutive SourceFailures no completed
wait ever exceeds `backoffMax = 30` time units. -/
theorem backoff_doubles_before_wait_and_caps :
    waitsOf (loop backoffMin threeK) = [2, 4, 8] ∧
    ∀ script : List CycleOutcome,
      (∀ c ∈ script, ∃ msg, c.err = some (SyncErr.errKubernetes msg)) →
      ∀ w ∈ waitsOf (loop backoffMin script), w ≤ backoffMax := by
  refine ⟨by decide, ?_⟩
  intro script _ w hw
  exact waitsOf_loop_le script backoffMin w hw

/-- C1 witness: the amended theorem evaluated on the concrete three-failure
script: the bound holds for the wait of 8 it produces. -/
theorem backoff_doubles_before_wait_and_caps_witness :
    waitsOf (loop backoffMin threeK) = [2, 4, 8] ∧ 8 ≤ backoffMax := by
  refine ⟨backoff_doubles_before_wait_and_caps.1, ?_⟩
  have hscript : ∀ c ∈ threeK, ∃ msg, c.err = some (SyncErr.errKubernetes msg) := by
    intro c hc
    rw [List.eq_of_mem_replicate hc]
    exact ⟨"e", rfl⟩
  exact backoff_doubles_before_wait_and_caps.2 threeK hscript 8 (by decide)

/-- C4: a cycle ending in SinkFailure (errOPA) sets the delay to
`backoffMin` regardless of the delay accumulated so far, waits exactly that
minimum, and if the quit signal fires during the wait, the loop terminates
immediately, issuing no further sync call. -/
theorem sinkFailure_resets_delay_and_waits_min (delay : Duration) (cause : String)
    (q : Bool) (rest : List CycleOutcome) :
    loop delay ({ err := some (SyncErr.errOPA cause), quitDuringWait := q } :: rest) =
      LoopEv.syncCall ::
        (if q then [LoopEv.waitInterrupted backoffMin]
         else LoopEv.wait backoffMin :: loop backoffMin rest) := by
  cases q <;> simp [loop]

/-- C5: a cycle ending in ChannelClosed resets the delay to `backoffMin` and
restarts at once: no wait event separates it from the next sync call. -/
theorem channelClosed_resets_delay_no_wait (delay : Duration) (q : Bool)
    (rest : List CycleOutcome) :
    loop delay ({ err := some SyncErr.errChannelClosed, quitDuringWait := q } :: rest) =
      LoopEv.syncCall :: loop backoffMin rest := by
  simp [loop]

/-- C6: for an object whose accessor succeeds, `syncAdd` upserts at path
`namespace ++ "/" ++ name` when the resource type is namespaced and at the
bare name otherwise, and `syncRemove` removes at exactly the same path. -/
theorem path_mapping_add_remove (s : GenericSync) (obj : Obj) (m : ObjMeta)
    (h : obj.meta = Except.ok m) :
    (syncAdd s obj).1 =
      [Call.putData (if s.ns.Namespaced then m.GetNamespace ++ "/" ++ m.GetName else m.GetName)
        (SinkVal.obj obj)] ∧
    (syncRemove s obj).1 =
      [Call.patchRemove (if s.ns.Namespaced then m.GetNamespace ++ "/" ++ m.GetName else m.GetName)] := by
  cases hns : s.ns.Namespaced <;> simp [syncAdd, syncRemove, h, hns]

/-- C6 witness: object `"foo"` in namespace `"bar"` maps to `"bar/foo"` for a
namespaced type and to `"foo"` for a non-namespaced type, for both the upsert
and the remove. -/
theorem path_mapping_add_remove_witness :
    (syncAdd sNs fooBar).1 = [Call.putData "bar/foo" (SinkVal.obj fooBar)] ∧
    (syncRemove sNs fooBar).1 = [Call.patchRemove "bar/foo"] ∧
    (syncAdd sFlat fooBar).1 = [Call.putData "foo" (SinkVal.obj fooBar)] ∧
    (syncRemove sFlat fooBar).1 = [Call.patchRemove "foo"] := by
  have hNs := path_mapping_add_remove sNs fooBar ⟨"foo", "bar"⟩ rfl
  have hFlat := path_mapping_add_remove sFlat fooBar ⟨"foo", "bar"⟩ rfl
  refine ⟨hNs.1.trans (by decide), hNs.2.trans (by decide),
    hFlat.1.trans (by decide), hFlat.2.trans (by decide)⟩

/-- C10: for a namespaced resource type, an object whose namespace field is
the empty string is stored and removed at `"/" ++ name` — the leading-slash
path, not the bare name. -/
theorem empty_namespace_gives_leading_slash_path (s : GenericSync) (obj : Obj)
    (m : ObjMeta) (hns : s.ns.Namespaced = true) (h : obj.meta = Except.ok m)
    (hempty : m.GetNamespace = "") :
    (syncAdd s obj).1 = [Call.putData ("/" ++ m.GetName) (SinkVal.obj obj)] ∧
    (syncRemove s obj).1 = [Call.patchRemove ("/" ++ m.GetName)] := by
  have hpath : m.GetNamespace ++ "/" ++ m.GetName = "/" ++ m.GetName := by
    rw [hempty]; rfl
  simp [syncAdd, syncRemove, h, hns, hpath]

/-- C10 witness: object `"foo"` with empty namespace maps to path `"/foo"`
for both the upsert and the remove. -/
theorem empty_namespace_gives_leading_slash_path_witness :
    (syncAdd sNs fooEmptyNs).1 = [Call.putData "/foo" (SinkVal.obj fooEmptyNs)] ∧
    (syncRemove sNs fooEmptyNs).1 = [Call.patchRemove "/foo"] := by
  have h := empty_namespace_gives_leading_slash_path sNs fooEmptyNs ⟨"foo", ""⟩ rfl rfl rfl
  exact ⟨h.1.trans (by decide), h.2.trans (by decide)⟩

/-- On an object whose accessor succeeds, `syncAdd` issues exactly the one
upsert at `pathOf`. -/
theorem syncAdd_calls_of_metaOk (s : GenericSync) (obj : Obj) (h : metaOk obj = true) :
    (syncAdd s obj).1 = [Call.putData (pathOf s obj) (SinkVal.obj obj)] := by
  cases hm : obj.meta with
  | error e => simp [metaOk, hm] at h
  | ok m => simp [syncAdd, pathOf, hm]

/-- On an object whose accessor succeeds, `syncRemove` issues exactly the
one remove at `pathOf`. -/
theorem syncRemove_calls_of_metaOk (s : GenericSync) (obj : Obj) (h : metaOk obj = true) :
    (syncRemove s obj).1 = [Call.patchRemove (pathOf s obj)] := by
  cases hm : obj.meta with
  | error e => simp [metaOk, hm] at h
  | ok m => simp [syncRemove, pathOf, hm]

/-- With a succeeding accessor and a succeeding sink, `syncAdd` returns nil. -/
theorem syncAdd_res_of_ok (s : GenericSync) (obj : Obj) (h : metaOk obj = true)
    (hput : ∀ p v, s.putDataRes p v = none) : (syncAdd s obj).2 = none := by
  cases hm : obj.meta with
  | error e => simp [metaOk, hm] at h
  | ok m => simp [syncAdd, hm, hput]

/-- With a succeeding accessor and a succeeding sink, `syncRemove` returns nil. -/
theorem syncRemove_res_of_ok (s : GenericSync) (obj : Obj) (h : metaOk obj = true)
    (hrem : ∀ p, s.patchRemoveRes p = none) : (syncRemove s obj).2 = none := by
  cases hm : obj.meta with
  | error e => simp [metaOk, hm] at h
  | ok m => simp [syncRemove, hm, hrem]

/-- When every listed object's accessor succeeds and the sink accepts every
upsert, the snapshot load issues one upsert per item, in listing order, and
returns nil. -/
theorem syncList_ok (s : GenericSync) (items : List Obj)
    (hmeta : ∀ it ∈ items, metaOk it = true)
    (hput : ∀ p v, s.putDataRes p v = none) :
    syncList s items = (items.flatMap (fun it => (syncAdd s it).1), none) := by
  induction items with
  | nil => simp [syncList]
  | cons it rest ih =>
    have hres : (syncAdd s it).2 = none :=
      syncAdd_res_of_ok s it (hmeta it (List.mem_cons_self it rest)) hput
    have ihr := ih (fun x hx => hmeta x (List.mem_cons_of_mem it hx))
    simp [syncList, hres, ihr]

/-- When every event is Added/Modified/Deleted, every carried object's
accessor succeeds, and the sink accepts every call, the event loop with no
quit signal applies one sink call per event in arrival order and ends with
`errChannelClosed` when the stream closes. -/
theorem syncEvents_ok (s : GenericSync) (evs : List Event)
    (hmeta : ∀ e ∈ evs, metaOk e.Object = true)
    (htypes : ∀ e ∈ evs,
      e.Typ = watchAdded ∨ e.Typ = watchModified ∨ e.Typ = watchDeleted)
    (hput : ∀ p v, s.putDataRes p v = none)
    (hrem : ∀ p, s.patchRemoveRes p = none) :
    syncEvents s evs none =
      (evs.flatMap (eventCallsOf s), some SyncErr.errChannelClosed) := by
  induction evs with
  | nil => simp [syncEvents]
  | cons e rest ih =>
    have hm : metaOk e.Object = true := hmeta e (List.mem_cons_self e rest)
    have ihr := ih (fun x hx => hmeta x (List.mem_cons_of_mem e hx))
      (fun x hx => htypes x (List.mem_cons_of_mem e hx))
    rcases htypes e (List.mem_cons_self e rest) with hTyp | hTyp | hTyp
    · have hres : (syncAdd s e.Object).2 = none := syncAdd_res_of_ok s e.Object hm hput
      simp [syncEvents, hTyp, hres, decr, ihr, eventCallsOf, watchAdded, watchDeleted]
    · have hres : (syncAdd s e.Object).2 = none := syncAdd_res_of_ok s e.Object hm hput
      simp [syncEvents, hTyp, hres, decr, ihr, eventCallsOf,
        watchAdded, watchModified, watchDeleted]
    · have hres : (syncRemove s e.Object).2 = none := syncRemove_res_of_ok s e.Object hm hrem
      simp [syncEvents, hTyp, hres, decr, ihr, eventCallsOf,
        watchAdded, watchModified, watchDeleted]

/-- C2: in a cycle whose listing returns items `L` at token `T` and whose
watch then yields events `E1..En` (all well-formed, sink always accepting),
the call trace is exactly: list, one subtree reset, one upsert per item of
`L` in listing order, the watch call, then the sink call of each event in
arrival order — so restricted to sink operations: reset, the snapshot
upserts, then the event operations, with no event operation before the
snapshot finishes loading. -/
theorem cycle_sink_call_sequence (s : GenericSync) (src : Source) (r : ListResult)
    (evs : List Event)
    (hlist : src.listRes = Except.ok r)
    (hwatch : src.watchRes r.resourceVersion = Except.ok evs)
    (hput : ∀ p v, s.putDataRes p v = none)
    (hrem : ∀ p, s.patchRemoveRes p = none)
    (hmetaI : ∀ it ∈ r.Items, metaOk it = true)
    (hmetaE : ∀ e ∈ evs, metaOk e.Object = true)
    (htypes : ∀ e ∈ evs,
      e.Typ = watchAdded ∨ e.Typ = watchModified ∨ e.Typ = watchDeleted) :
    (sync s src none).1 =
      Call.listCall :: Call.putData "/" SinkVal.emptyMap ::
        (r.Items.flatMap (fun it => (syncAdd s it).1) ++
          Call.watchCall r.resourceVersion :: evs.flatMap (eventCallsOf s)) ∧
    (sync s src none).1.filter isSinkCall =
      Call.putData "/" SinkVal.emptyMap ::
        (r.Items.flatMap (fun it => (syncAdd s it).1) ++
          evs.flatMap (eventCallsOf s)) ∧
    (∀ it ∈ r.Items, (syncAdd s it).1 = [Call.putData (pathOf s it) (SinkVal.obj it)]) ∧
    (∀ e ∈ evs, eventCallsOf s e =
      if e.Typ = watchDeleted then [Call.patchRemove (pathOf s e.Object)]
      else [Call.putData (pathOf s e.Object) (SinkVal.obj e.Object)]) := by
  have hload := syncList_ok s r.Items hmetaI hput
  have hevs := syncEvents_ok s evs hmetaE htypes hput hrem
  have htrace : (sync s src none).1 =
      Call.listCall :: Call.putData "/" SinkVal.emptyMap ::
        (r.Items.flatMap (fun it => (syncAdd s it).1) ++
          Call.watchCall r.resourceVersion :: evs.flatMap (eventCallsOf s)) := by
    simp [sync, syncReset, hlist, hput, hload, hwatch, hevs]
  have hItemsSink : ∀ a ∈ r.Items.flatMap (fun it => (syncAdd s it).1),
      isSinkCall a = true := by
    intro a ha
    rcases List.mem_flatMap.mp ha with ⟨it, hit, hmem⟩
    rw [syncAdd_calls_of_metaOk s it (hmetaI it hit)] at hmem
    rcases List.mem_singleton.mp hmem with rfl
    rfl
  have hEvsSink : ∀ a ∈ evs.flatMap (eventCallsOf s), isSinkCall a = true := by
    intro a ha
    rcases List.mem_flatMap.mp ha with ⟨e, he, hmem⟩
    by_cases hDel : e.Typ = watchDeleted
    · rw [eventCallsOf, if_pos hDel,
        syncRemove_calls_of_metaOk s e.Object (hmetaE e he)] at hmem
      rcases List.mem_singleton.mp hmem with rfl
      rfl
    · rw [eventCallsOf, if_neg hDel,
        syncAdd_calls_of_metaOk s e.Object (hmetaE e he)] at hmem
      rcases List.mem_singleton.mp hmem with rfl
      rfl
  refine ⟨htrace, ?_, ?_, ?_⟩
  · rw [htrace]
    rw [List.filter_cons, List.filter_cons]
    have hsplit : (r.Items.flatMap (fun it => (syncAdd s it).1) ++
        Call.watchCall r.resourceVersion :: evs.flatMap (eventCallsOf s)).filter isSinkCall =
        r.Items.flatMap (fun it => (syncAdd s it).1) ++
          evs.flatMap (eventCallsOf s) := by
      rw [List.filter_append, List.filter_cons]
      rw [List.filter_eq_self.mpr hItemsSink, List.filter_eq_self.mpr hEvsSink]
      simp [isSinkCall]
    rw [hsplit]
    simp [isSinkCall]
  · intro it hit
    exact syncAdd_calls_of_metaOk s it (hmetaI it hit)
  · intro e he
    by_cases hDel : e.Typ = watchDeleted
    · rw [eventCallsOf, if_pos hDel, if_pos hDel]
      exact syncRemove_calls_of_metaOk s e.Object (hmetaE e he)
    · rw [eventCallsOf, if_neg hDel, if_neg hDel]
      exact syncAdd_calls_of_metaOk s e.Object (hmetaE e he)

/-- C2 witness: the end-to-end scenario: listing `[objA]` at token `"v1"`,
then Added `objB` and Deleted `objA`; the trace is list, reset, upsert a,
watch, upsert b, remove a, and its sink operations in order are reset,
upsert a, upsert b, remove a. -/
theorem cycle_sink_call_sequence_witness :
    (sync sNs srcAB none).1 =
      [Call.listCall, Call.putData "/" SinkVal.emptyMap,
       Call.putData "ns1/a" (SinkVal.obj objA), Call.watchCall "v1",
       Call.putData "ns1/b" (SinkVal.obj objB), Call.patchRemove "ns1/a"] ∧
    (sync sNs srcAB none).1.filter isSinkCall =
      [Call.putData "/" SinkVal.emptyMap, Call.putData "ns1/a" (SinkVal.obj objA),
       Call.putData "ns1/b" (SinkVal.obj objB), Call.patchRemove "ns1/a"] ∧
    (syncAdd sNs objA).1 = [Call.putData "ns1/a" (SinkVal.obj objA)] := by
  have h := cycle_sink_call_sequence sNs srcAB
    { Items := [objA], resourceVersion := "v1" }
    [⟨watchAdded, objB⟩, ⟨watchDeleted, objA⟩]
    rfl rfl (fun _ _ => rfl) (fun _ => rfl) (by decide) (by decide) (by decide)
  exact ⟨h.1.trans (by decide), h.2.1.trans (by decide),
    (h.2.2.1 objA (by decide)).trans (by decide)⟩

/-- When the quit signal is scheduled before event `k` and the first `k`
events are well-formed and accepted by the sink, the event loop applies
exactly the first `k` events' sink calls and returns nil (GracefulStop):
nothing after the stop point is issued. -/
theorem syncEvents_quit (s : GenericSync) :
    ∀ (evs : List Event) (k : Nat), k ≤ evs.length →
    (∀ e ∈ evs.take k, metaOk e.Object = true) →
    (∀ e ∈ evs.take k,
      e.Typ = watchAdded ∨ e.Typ = watchModified ∨ e.Typ = watchDeleted) →
    (∀ p v, s.putDataRes p v = none) →
    (∀ p, s.patchRemoveRes p = none) →
    syncEvents s evs (some k) = ((evs.take k).flatMap (eventCallsOf s), none) := by
  intro evs
  induction evs with
  | nil =>
    intro k hk _ _ _ _
    have hk0 : k = 0 := Nat.le_zero.mp hk
    subst hk0
    simp [syncEvents]
  | cons e rest ih =>
    intro k hk hmeta htypes hput hrem
    cases k with
    | zero => simp [syncEvents]
    | succ k' =>
      have hk' : k' ≤ rest.length := Nat.succ_le_succ_iff.mp hk
      have hhead : e ∈ (e :: rest).take (k' + 1) := by
        rw [List.take_succ_cons]
        exact List.mem_cons_self e _
      have htail : ∀ e' ∈ rest.take k', metaOk e'.Object = true := by
        intro e' he'
        refine hmeta e' ?_
        rw [List.take_succ_cons]
        exact List.mem_cons_of_mem e he'
      have htailT : ∀ e' ∈ rest.take k',
          e'.Typ = watchAdded ∨ e'.Typ = watchModified ∨ e'.Typ = watchDeleted := by
        intro e' he'
        refine htypes e' ?_
        rw [List.take_succ_cons]
        exact List.mem_cons_of_mem e he'
      have ihr := ih k' hk' htail htailT hput hrem
      have hm : metaOk e.Object = true := hmeta e hhead
      rcases htypes e hhead with hTyp | hTyp | hTyp
      · have hres : (syncAdd s e.Object).2 = none := syncAdd_res_of_ok s e.Object hm hput
        simp [syncEvents, hTyp, hres, decr, ihr, eventCallsOf, watchAdded, watchDeleted]
      · have hres : (syncAdd s e.Object).2 = none := syncAdd_res_of_ok s e.Object hm hput
        simp [syncEvents, hTyp, hres, decr, ihr, eventCallsOf,
          watchAdded, watchModified, watchDeleted]
      · have hres : (syncRemove s e.Object).2 = none :=
          syncRemove_res_of_ok s e.Object hm hrem
        simp [syncEvents, hTyp, hres, decr, ihr, eventCallsOf,
          watchAdded, watchModified, watchDeleted]

/-- C7: a stop signal observed while blocked is honoured promptly. In the
event loop: with quit scheduled before event `k`, `sync` issues exactly the
snapshot calls plus the first `k` events' sink calls and returns nil — the
GracefulStop outcome — with no further source or sink call. In a backoff
wait: quit firing during the wait after a SinkFailure or SourceFailure ends
the loop at once, with no further sync call. -/
theorem stop_signal_prompt_termination :
    (∀ (s : GenericSync) (evs : List Event) (k : Nat),
      k ≤ evs.length →
      (∀ e ∈ evs.take k, metaOk e.Object = true) →
      (∀ e ∈ evs.take k,
        e.Typ = watchAdded ∨ e.Typ = watchModified ∨ e.Typ = watchDeleted) →
      (∀ p v, s.putDataRes p v = none) →
      (∀ p, s.patchRemoveRes p = none) →
      syncEvents s evs (some k) = ((evs.take k).flatMap (eventCallsOf s), none)) ∧
    (∀ (s : GenericSync) (src : Source) (r : ListResult) (evs : List Event) (k : Nat),
      src.listRes = Except.ok r →
      src.watchRes r.resourceVersion = Except.ok evs →
      k ≤ evs.length →
      (∀ it ∈ r.Items, metaOk it = true) →
      (∀ e ∈ evs.take k, metaOk e.Object = true) →
      (∀ e ∈ evs.take k,
        e.Typ = watchAdded ∨ e.Typ = watchModified ∨ e.Typ = watchDeleted) →
      (∀ p v, s.putDataRes p v = none) →
      (∀ p, s.patchRemoveRes p = none) →
      sync s src (some k) =
        (Call.listCall :: Call.putData "/" SinkVal.emptyMap ::
          (r.Items.flatMap (fun it => (syncAdd s it).1) ++
            Call.watchCall r.resourceVersion ::
              (evs.take k).flatMap (eventCallsOf s)),
         none)) ∧
    (∀ (delay : Duration) (e : String) (rest : List CycleOutcome),
      loop delay ({ err := some (SyncErr.errOPA e), quitDuringWait := true } :: rest) =
        [LoopEv.syncCall, LoopEv.waitInterrupted backoffMin]) ∧
    (∀ (delay : Duration) (e : String) (rest : List CycleOutcome),
      loop delay ({ err := some (SyncErr.errKubernetes e), quitDuringWait := true } :: rest) =
        [LoopEv.syncCall,
         LoopEv.waitInterrupted (if delay * 2 > backoffMax then backoffMax else delay * 2)]) := by
  refine ⟨syncEvents_quit, ?_, ?_, ?_⟩
  · intro s src r evs k hlist hwatch hk hmetaI hmetaE htypes hput hrem
    have hload := syncList_ok s r.Items hmetaI hput
    have hevs := syncEvents_quit s evs k hk hmetaE htypes hput hrem
    simp [sync, syncReset, hlist, hput, hload, hwatch, hevs]
  · intro delay e rest
    simp [loop]
  · intro delay e rest
    simp [loop]

/-- C7 witness: quit scheduled before the second event of the `srcAB` run
makes `sync` return nil after upserting `a` (snapshot) and `b` (first
event) only; quit during a backoff wait ends the loop with the wait
interrupted. -/
theorem stop_signal_prompt_termination_witness :
    syncEvents sNs [⟨watchAdded, objB⟩, ⟨watchDeleted, objA⟩] (some 1) =
      ([Call.putData "ns1/b" (SinkVal.obj objB)], none) ∧
    sync sNs srcAB (some 1) =
      ([Call.listCall, Call.putData "/" SinkVal.emptyMap,
        Call.putData "ns1/a" (SinkVal.obj objA), Call.watchCall "v1",
        Call.putData "ns1/b" (SinkVal.obj objB)], none) ∧
    loop 8 ({ err := some (SyncErr.errOPA "opa down"), quitDuringWait := true } :: []) =
      [LoopEv.syncCall, LoopEv.waitInterrupted backoffMin] ∧
    loop backoffMin
        ({ err := some (SyncErr.errKubernetes "boom"), quitDuringWait := true } :: []) =
      [LoopEv.syncCall, LoopEv.waitInterrupted 2] := by
  obtain ⟨h1, h2, h3, h4⟩ := stop_signal_prompt_termination
  refine ⟨(h1 sNs [⟨watchAdded, objB⟩, ⟨watchDeleted, objA⟩] 1 (by decide) (by decide)
      (by decide) (fun _ _ => rfl) (fun _ => rfl)).trans (by decide),
    (h2 sNs srcAB { Items := [objA], resourceVersion := "v1" }
      [⟨watchAdded, objB⟩, ⟨watchDeleted, objA⟩] 1 rfl rfl (by decide) (by decide)
      (by decide) (by decide) (fun _ _ => rfl) (fun _ => rfl)).trans (by decide),
    h3 8 "opa down" [],
    (h4 backoffMin "boom" []).trans (by decide)⟩

/-- `syncAdd` never issues a watch call. -/
theorem watchCall_not_mem_syncAdd (s : GenericSync) (obj : Obj) (rv : String) :
    Call.watchCall rv ∉ (syncAdd s obj).1 := by
  cases hm : obj.meta <;> simp [syncAdd, hm]

/-- `syncRemove` never issues a watch call. -/
theorem watchCall_not_mem_syncRemove (s : GenericSync) (obj : Obj) (rv : String) :
    Call.watchCall rv ∉ (syncRemove s obj).1 := by
  cases hm : obj.meta <;> simp [syncRemove, hm]

/-- The snapshot load never issues a watch call. -/
theorem watchCall_not_mem_syncList (s : GenericSync) (rv : String) :
    ∀ items : List Obj, Call.watchCall rv ∉ (syncList s items).1 := by
  intro items
  induction items with
  | nil => simp [syncList]
  | cons it rest ih =>
    cases hr : (syncAdd s it).2 with
    | some e => simp [syncList, hr, watchCall_not_mem_syncAdd]
    | none => simp [syncList, hr, watchCall_not_mem_syncAdd, ih]

/-- The event loop never issues a watch call. -/
theorem watchCall_not_mem_syncEvents (s : GenericSync) (rv : String) :
    ∀ (evs : List Event) (q : Option Nat), Call.watchCall rv ∉ (syncEvents s evs q).1 := by
  intro evs
  induction evs with
  | nil =>
    intro q
    rcases q with _ | n
    · simp [syncEvents]
    · cases n <;> simp [syncEvents]
  | cons e rest ih =>
    intro q
    have step : ∀ q', Call.watchCall rv ∉
        (if e.Typ = watchAdded then
          let add := syncAdd s e.Object
          match add.2 with
          | some err => (add.1, some (SyncErr.errOPA ("add event: " ++ err)))
          | none =>
            let next := syncEvents s rest q'
            (add.1 ++ next.1, next.2)
        else if e.Typ = watchModified then
          let add := syncAdd s e.Object
          match add.2 with
          | some err => (add.1, some (SyncErr.errOPA ("modify event: " ++ err)))
          | none =>
            let next := syncEvents s rest q'
            (add.1 ++ next.1, next.2)
        else if e.Typ = watchDeleted then
          let rem := syncRemove s e.Object
          match rem.2 with
          | some err => (rem.1, some (SyncErr.errOPA ("delete event: " ++ err)))
          | none =>
            let next := syncEvents s rest q'
            (rem.1 ++ next.1, next.2)
        else if e.Typ = watchError then
          ([], some (SyncErr.errKubernetes "error event"))
        else
          ([], some SyncErr.errChannelClosed)).1 := by
      intro q'
      by_cases h1 : e.Typ = watchAdded
      · cases hr : (syncAdd s e.Object).2 with
        | some err => simp [h1, hr, watchCall_not_mem_syncAdd]
        | none => simp [h1, hr, watchCall_not_mem_syncAdd, ih]
      · by_cases h2 : e.Typ = watchModified
        · cases hr : (syncAdd s e.Object).2 with
          | some err =>
            simp [h1, h2, hr, watchCall_not_mem_syncAdd, watchAdded, watchModified]
          | none =>
            simp [h1, h2, hr, watchCall_not_mem_syncAdd, ih, watchAdded, watchModified]
        · by_cases h3 : e.Typ = watchDeleted
          · cases hr : (syncRemove s e.Object).2 with
            | some err =>
              simp [h1, h2, h3, hr, watchCall_not_mem_syncRemove,
                watchAdded, watchModified, watchDeleted]
            | none =>
              simp [h1, h2, h3, hr, watchCall_not_mem_syncRemove, ih,
                watchAdded, watchModified, watchDeleted]
          · by_cases h4 : e.Typ = watchError
            · simp [h1, h2, h3, h4, watchAdded, watchModified, watchDeleted, watchError]
            · simp [h1, h2, h3, h4]
    rcases q with _ | n
    · exact step none
    · cases n with
      | zero => simp [syncEvents]
      | succ n' => exact step (some n')

/-- C8: every watch call that `sync` issues carries exactly the resource
version returned by that cycle's listing, unmodified. -/
theorem watch_uses_listed_resource_version (s : GenericSync) (src : Source)
    (q : Option Nat) (rv : String)
    (h : Call.watchCall rv ∈ (sync s src q).1) :
    ∃ r, src.listRes = Except.ok r ∧ rv = r.resourceVersion := by
  cases hl : src.listRes with
  | error e => simp [sync, hl] at h
  | ok r =>
    refine ⟨r, rfl, ?_⟩
    cases hreset : s.putDataRes "/" SinkVal.emptyMap with
    | some e => simp [sync, syncReset, hl, hreset] at h
    | none =>
      cases hload : (syncList s r.Items).2 with
      | some e =>
        simp [sync, syncReset, hl, hreset, hload,
          watchCall_not_mem_syncList] at h
      | none =>
        cases hw : src.watchRes r.resourceVersion with
        | error e =>
          simp [sync, syncReset, hl, hreset, hload, hw,
            watchCall_not_mem_syncList] at h
          exact h
        | ok evs =>
          simp [sync, syncReset, hl, hreset, hload, hw,
            watchCall_not_mem_syncList, watchCall_not_mem_syncEvents] at h
          exact h

/-- C8 witness: the only watch call of the `srcAB` run carries `"v1"`, the
resource version its listing returned. -/
theorem watch_uses_listed_resource_version_witness :
    ∃ r, srcAB.listRes = Except.ok r ∧ "v1" = r.resourceVersion :=
  watch_uses_listed_resource_version sNs srcAB none "v1" (by decide)

/-- C3: the cycle's outcome is classified by origin: a failed list or watch
call or a received Error event is `errKubernetes` (SourceFailure); a failed
sink reset, insert, or remove is `errOPA` (SinkFailure); and an event whose
type is none of Added, Modified, Deleted, Error takes the `default` branch
and is `errChannelClosed`. -/
theorem cycle_outcome_classification :
    (∀ (s : GenericSync) (src : Source) (q : Option Nat) (e : String),
      src.listRes = Except.error e →
      (sync s src q).2 = some (SyncErr.errKubernetes ("list: " ++ e))) ∧
    (∀ (s : GenericSync) (src : Source) (q : Option Nat) (r : ListResult) (e : String),
      src.listRes = Except.ok r →
      s.putDataRes "/" SinkVal.emptyMap = some e →
      (sync s src q).2 = some (SyncErr.errOPA ("reset: " ++ e))) ∧
    (∀ (s : GenericSync) (src : Source) (q : Option Nat) (r : ListResult) (e : String),
      src.listRes = Except.ok r →
      s.putDataRes "/" SinkVal.emptyMap = none →
      (syncList s r.Items).2 = some e →
      (sync s src q).2 = some (SyncErr.errOPA ("list add: " ++ e))) ∧
    (∀ (s : GenericSync) (src : Source) (q : Option Nat) (r : ListResult) (e : String),
      src.listRes = Except.ok r →
      s.putDataRes "/" SinkVal.emptyMap = none →
      (syncList s r.Items).2 = none →
      src.watchRes r.resourceVersion = Except.error e →
      (sync s src q).2 = some (SyncErr.errKubernetes ("watch: " ++ e))) ∧
    (∀ (s : GenericSync) (evt : Event) (rest : List Event),
      evt.Typ = watchError →
      syncEvents s (evt :: rest) none = ([], some (SyncErr.errKubernetes "error event"))) ∧
    (∀ (s : GenericSync) (evt : Event) (rest : List Event),
      evt.Typ ≠ watchAdded → evt.Typ ≠ watchModified → evt.Typ ≠ watchDeleted →
      evt.Typ ≠ watchError →
      syncEvents s (evt :: rest) none = ([], some SyncErr.errChannelClosed)) ∧
    (∀ (s : GenericSync) (evt : Event) (rest : List Event) (e : String),
      evt.Typ = watchAdded → (syncAdd s evt.Object).2 = some e →
      (syncEvents s (evt :: rest) none).2 = some (SyncErr.errOPA ("add event: " ++ e))) ∧
    (∀ (s : GenericSync) (evt : Event) (rest : List Event) (e : String),
      evt.Typ = watchModified → (syncAdd s evt.Object).2 = some e →
      (syncEvents s (evt :: rest) none).2 = some (SyncErr.errOPA ("modify event: " ++ e))) ∧
    (∀ (s : GenericSync) (evt : Event) (rest : List Event) (e : String),
      evt.Typ = watchDeleted → (syncRemove s evt.Object).2 = some e →
      (syncEvents s (evt :: rest) none).2 = some (SyncErr.errOPA ("delete event: " ++ e))) := by
  refine ⟨?_, ?_, ?_, ?_, ?_, ?_, ?_, ?_, ?_⟩
  · intro s src q e h
    simp [sync, h]
  · intro s src q r e h hreset
    simp [sync, syncReset, h, hreset]
  · intro s src q r e h hreset hload
    simp [sync, syncReset, h, hreset, hload]
  · intro s src q r e h hreset hload hwatch
    simp [sync, syncReset, h, hreset, hload, hwatch]
  · intro s evt rest h
    simp [syncEvents, h, watchError, watchAdded, watchModified, watchDeleted]
  · intro s evt rest h1 h2 h3 h4
    simp [syncEvents, h1, h2, h3, h4]
  · intro s evt rest e h hadd
    simp [syncEvents, h, hadd, watchAdded]
  · intro s evt rest e h hadd
    simp [syncEvents, h, hadd, watchModified, watchAdded]
  · intro s evt rest e h hrem
    simp [syncEvents, h, hrem, watchDeleted, watchAdded, watchModified]

/-- C3 witness: one concrete run for each classification case. -/
theorem cycle_outcome_classification_witness :
    (sync sNs srcListFail none).2 = some (SyncErr.errKubernetes ("list: " ++ "connection refused")) ∧
    (sync sBadSink srcAB none).2 = some (SyncErr.errOPA ("reset: " ++ "opa down")) ∧
    (sync sItemFailSink srcAB none).2 = some (SyncErr.errOPA ("list add: " ++ "opa down")) ∧
    (sync sNs srcWatchFail none).2 = some (SyncErr.errKubernetes ("watch: " ++ "connection refused")) ∧
    syncEvents sNs [⟨watchError, objA⟩] none = ([], some (SyncErr.errKubernetes "error event")) ∧
    syncEvents sNs [⟨"BOOKMARK", objA⟩] none = ([], some SyncErr.errChannelClosed) ∧
    (syncEvents sBadSink [⟨watchAdded, objA⟩] none).2 = some (SyncErr.errOPA ("add event: " ++ "opa down")) ∧
    (syncEvents sBadSink [⟨watchModified, objA⟩] none).2 = some (SyncErr.errOPA ("modify event: " ++ "opa down")) ∧
    (syncEvents sBadSink [⟨watchDeleted, objA⟩] none).2 = some (SyncErr.errOPA ("delete event: " ++ "opa down")) := by
  obtain ⟨h1, h2, h3, h4, h5, h6, h7, h8, h9⟩ := cycle_outcome_classification
  exact ⟨h1 sNs srcListFail none "connection refused" rfl,
    h2 sBadSink srcAB none { Items := [objA], resourceVersion := "v1" } "opa down" rfl rfl,
    h3 sItemFailSink srcAB none { Items := [objA], resourceVersion := "v1" } "opa down" rfl rfl
      (by decide),
    h4 sNs srcWatchFail none { Items := [objA], resourceVersion := "v1" } "connection refused"
      rfl rfl (by decide) rfl,
    h5 sNs ⟨watchError, objA⟩ [] rfl,
    h6 sNs ⟨"BOOKMARK", objA⟩ [] (by decide) (by decide) (by decide) (by decide),
    h7 sBadSink ⟨watchAdded, objA⟩ [] "opa down" rfl (by decide),
    h8 sBadSink ⟨watchModified, objA⟩ [] "opa down" rfl (by decide),
    h9 sBadSink ⟨watchDeleted, objA⟩ [] "opa down" rfl (by decide)⟩

/-- C9: a failed accessor surfaces as the sink-failure path: `syncAdd` and
`syncRemove` fail-fast with the accessor's error before issuing any sink
call, the snapshot load and the event loop wrap that error as `errOPA`
(SinkFailure), and the retry loop then resets the delay to `backoffMin`
instead of growing it. -/
theorem accessor_error_is_sink_failure :
    (∀ (s : GenericSync) (obj : Obj) (e : String),
      obj.meta = Except.error e →
      syncAdd s obj = ([], some e) ∧ syncRemove s obj = ([], some e)) ∧
    (∀ (s : GenericSync) (obj : Obj) (rest : List Obj) (e : String),
      obj.meta = Except.error e →
      (syncList s (obj :: rest)).2 = some e) ∧
    (∀ (s : GenericSync) (src : Source) (q : Option Nat) (r : ListResult) (e : String),
      src.listRes = Except.ok r →
      s.putDataRes "/" SinkVal.emptyMap = none →
      (syncList s r.Items).2 = some e →
      (sync s src q).2 = some (SyncErr.errOPA ("list add: " ++ e))) ∧
    (∀ (s : GenericSync) (evt : Event) (rest : List Event) (e : String),
      evt.Object.meta = Except.error e →
      (evt.Typ = watchAdded →
        syncEvents s (evt :: rest) none = ([], some (SyncErr.errOPA ("add event: " ++ e)))) ∧
      (evt.Typ = watchModified →
        syncEvents s (evt :: rest) none = ([], some (SyncErr.errOPA ("modify event: " ++ e)))) ∧
      (evt.Typ = watchDeleted →
        syncEvents s (evt :: rest) none = ([], some (SyncErr.errOPA ("delete event: " ++ e))))) ∧
    (∀ (delay : Duration) (e : String) (rest : List CycleOutcome),
      loop delay ({ err := some (SyncErr.errOPA e), quitDuringWait := false } :: rest) =
        LoopEv.syncCall :: LoopEv.wait backoffMin :: loop backoffMin rest) := by
  refine ⟨?_, ?_, ?_, ?_, ?_⟩
  · intro s obj e h
    simp [syncAdd, syncRemove, h]
  · intro s obj rest e h
    simp [syncList, syncAdd, h]
  · intro s src q r e h hreset hload
    simp [sync, syncReset, h, hreset, hload]
  · intro s evt rest e h
    refine ⟨?_, ?_, ?_⟩ <;> intro hTyp <;>
      simp [syncEvents, hTyp, syncAdd, syncRemove, h,
        watchAdded, watchModified, watchDeleted]
  · intro delay e rest
    simp [loop]

/-- C9 witness: a malformed object in the listing and in each event kind
produces the corresponding `errOPA` outcome, and the loop then waits the
minimum delay. -/
theorem accessor_error_is_sink_failure_witness :
    syncAdd sNs badObj = ([], some "object has no meta") ∧
    (syncList sNs [badObj]).2 = some "object has no meta" ∧
    syncEvents sNs [⟨watchAdded, badObj⟩] none =
      ([], some (SyncErr.errOPA ("add event: " ++ "object has no meta"))) ∧
    syncEvents sNs [⟨watchDeleted, badObj⟩] none =
      ([], some (SyncErr.errOPA ("delete event: " ++ "object has no meta"))) ∧
    loop backoffMin ({ err := some (SyncErr.errOPA "object has no meta"), quitDuringWait := false } :: []) =
      [LoopEv.syncCall, LoopEv.wait backoffMin] := by
  obtain ⟨h1, h2, h3, h4, h5⟩ := accessor_error_is_sink_failure
  refine ⟨(h1 sNs badObj "object has no meta" rfl).1,
    h2 sNs badObj [] "object has no meta" rfl,
    (h4 sNs ⟨watchAdded, badObj⟩ [] "object has no meta" rfl).1 rfl,
    (h4 sNs ⟨watchDeleted, badObj⟩ [] "object has no meta" rfl).2.2 rfl,
    (h5 backoffMin "object has no meta" []).trans (by decide)⟩

end KubeMgmt
